import Mathlib

/-!
Verification of the go-jira agile client (board.go, user.go, webhook.go).

The repository's service operations are shallowly embedded as pure Lean
functions.  Go pointers that may be nil are modelled as `Option`; a Go nil
slice is `Option.none` while a decoded slice is `Option.some`.  The shared
client plumbing (`Client.Do`, `NewRequest`, `addOptions`, `Response`) lives
in a repository file that is not among the given sources, so those pieces
are modelled from the specification, as marked in their doc comments.
-/

namespace Jira

/-- A JSON value, as produced by the external JSON codec.  Numbers are
modelled as integers: every number appearing in the payloads of the
verified operations is integral. -/
inductive Json where
  | null : Json
  | bool (b : Bool) : Json
  | num (n : Int) : Json
  | str (s : String) : Json
  | arr (elems : List Json) : Json
  | obj (fields : List (String × Json)) : Json

/-- Go `error` values produced by this client: transport-level failures
(connection failure, non-2xx status surfaced by the shared client), the
JSON codec's failures, and the fixed-message errors the create operations
build with `fmt.Errorf`. -/
inductive Err where
  | conn (msg : String) : Err
  | http (status : Nat) : Err
  | jsonType (target : String) : Err
  | jsonBad : Err
  | bodyRead : Err
  | msg (s : String) : Err
deriving DecidableEq, Repr

/-- Field lookup in a decoded JSON object: with duplicate keys the later
value wins, matching the JSON codec. -/
def jLookup : List (String × Json) → String → Option Json
  | [], _ => none
  | (k, v) :: rest, key =>
    match jLookup rest key with
    | some r => some r
    | none => if k = key then some v else none

/-- `Board` (board.go lines 25–31). -/
structure Board where
  ID : Int
  Self : String
  Name : String
  «Type» : String
  FilterID : Int
deriving DecidableEq, Repr

def zeroBoard : Board := ⟨0, "", "", "", 0⟩

/-- `BoardsList` (board.go lines 16–22); `Values` is a Go slice, nil when
absent. -/
structure BoardsList where
  MaxResults : Int
  StartAt : Int
  Total : Int
  IsLast : Bool
  Values : Option (List Board)
deriving DecidableEq, Repr

def zeroBoardsList : BoardsList := ⟨0, 0, 0, false, none⟩

/-- `time.Time` is external to the repository; only the carried RFC3339
text matters to the client, so it is kept opaque. -/
structure GoTime where
  raw : String
deriving DecidableEq, Repr

/-- `Sprint` (board.go lines 57–66); the three timestamps are `*time.Time`,
nil when absent. -/
structure Sprint where
  ID : Int
  Name : String
  CompleteDate : Option GoTime
  EndDate : Option GoTime
  StartDate : Option GoTime
  OriginBoardID : Int
  Self : String
  State : String
deriving DecidableEq, Repr

/-- Modelled from the spec: the `Epic` resource shape lives in a repository
file that is not among the given sources; nothing verified here inspects
its fields, so it is kept as the opaque JSON payload. -/
structure Epic where
  payload : Json

/-- Modelled from the spec: the `Issue` resource shape lives in a
repository file that is not among the given sources; kept as the opaque
JSON payload. -/
structure Issue where
  payload : Json

/-- Wrapper struct for the sprint search result (board.go lines 48–50). -/
structure sprintsResult where
  Sprints : Option (List Sprint)
deriving DecidableEq, Repr

/-- Wrapper for backlog / epic-issue results (board.go lines 52–54). -/
structure backlogResults where
  Backlog : Option (List Issue)

/-- Wrapper for epic results (board.go lines 68–70). -/
structure epicResults where
  Epics : Option (List Epic)

/-- `ConfigFilter` (board.go lines 72–75). -/
structure ConfigFilter where
  ID : String
  Self : String
deriving DecidableEq, Repr

/-- `BoardStatus` (board.go lines 77–80). -/
structure BoardStatus where
  ID : String
  Self : String
deriving DecidableEq, Repr

/-- `Column` (board.go lines 82–87). -/
structure Column where
  Name : String
  Statuses : Option (List BoardStatus)
  Min : Int
  Max : Int
deriving DecidableEq, Repr

/-- `ColumnConfig` (board.go lines 89–92). -/
structure ColumnConfig where
  Columns : Option (List Column)
  ConstraintType : String
deriving DecidableEq, Repr

/-- `BoardEstimationField` (board.go lines 94–97). -/
structure BoardEstimationField where
  FieldId : String
  DisplayName : String
deriving DecidableEq, Repr

/-- `Estimation` (board.go lines 99–102). -/
structure Estimation where
  «Type» : String
  Field : BoardEstimationField
deriving DecidableEq, Repr

/-- `Ranking` (board.go lines 104–106). -/
structure Ranking where
  RankCustomFieldId : Int
deriving DecidableEq, Repr

/-- `BoardConfiguration` (board.go lines 108–116). -/
structure BoardConfiguration where
  ID : Int
  Name : String
  Self : String
  Filter : ConfigFilter
  ColumnConfig : ColumnConfig
  Estimation : Estimation
  Ranking : Ranking
deriving DecidableEq, Repr

def zeroBoardConfiguration : BoardConfiguration :=
  ⟨0, "", "", ⟨"", ""⟩, ⟨none, ""⟩, ⟨"", ⟨"", ""⟩⟩, ⟨0⟩⟩

/-- Modelled from the spec: `AvatarUrls` (the "avatar URL set") lives in a
repository file that is not among the given sources; kept as the opaque
JSON payload. -/
structure AvatarUrls where
  payload : Json

/-- `User` (user.go lines 19–30).  `Password` carries the JSON tag `-`: the
codec neither serializes nor decodes it. -/
structure User where
  Self : String
  Name : String
  Password : String
  Key : String
  EmailAddress : String
  AvatarUrls : AvatarUrls
  DisplayName : String
  Active : Bool
  TimeZone : String
  ApplicationKeys : Option (List String)

def zeroUser : User := ⟨"", "", "", "", "", ⟨Json.null⟩, "", false, "", none⟩

/-- `Webhook` (webhook.go lines 17–23). -/
structure Webhook where
  Name : String
  Url : String
  Events : Option (List String)
  JqlFilter : String
  ExcludeIssueDetails : Bool
deriving DecidableEq, Repr

def zeroWebhook : Webhook := ⟨"", "", none, "", false⟩

/-! ### JSON decoding

The decoders below mirror the external JSON codec's mapping of a parsed
JSON value onto the repository's record shapes, driven entirely by the
`json:"..."` tags in the source.  Unknown object keys are ignored, an
absent or `null` field leaves the field at its zero value, and a type
mismatch is an error.  Each decoder targets a freshly allocated zero
value, which is how every call site in the sources uses the codec. -/

def decInt : Json → Except Err Int
  | .null => .ok 0
  | .num n => .ok n
  | _ => .error (.jsonType "int")

def decString : Json → Except Err String
  | .null => .ok ""
  | .str s => .ok s
  | _ => .error (.jsonType "string")

def decBool : Json → Except Err Bool
  | .null => .ok false
  | .bool b => .ok b
  | _ => .error (.jsonType "bool")

/-- Decode a Go slice field: `null` (or absence) leaves the slice nil. -/
def decList (dec : Json → Except Err α) : Json → Except Err (Option (List α))
  | .null => .ok none
  | .arr xs => (xs.mapM dec).map some
  | _ => .error (.jsonType "slice")

/-- Decode a `*time.Time` field.  RFC3339 validation belongs to the
external time package and is not the client's concern; the carried text is
kept as-is. -/
def decTimePtr : Json → Except Err (Option GoTime)
  | .null => .ok none
  | .str s => .ok (some ⟨s⟩)
  | _ => .error (.jsonType "time")

/-- Look up a struct field by its tag name; absent means zero value. -/
def decField (fields : List (String × Json)) (key : String) (dflt : α)
    (dec : Json → Except Err α) : Except Err α :=
  match jLookup fields key with
  | none => .ok dflt
  | some j => dec j

def decodeBoard : Json → Except Err Board
  | .null => .ok zeroBoard
  | .obj fs => do
    let id ← decField fs "id" 0 decInt
    let self ← decField fs "self" "" decString
    let name ← decField fs "name" "" decString
    let btype ← decField fs "type" "" decString
    let filterId ← decField fs "filterId" 0 decInt
    .ok ⟨id, self, name, btype, filterId⟩
  | _ => .error (.jsonType "Board")

def decodeBoardsList : Json → Except Err BoardsList
  | .null => .ok zeroBoardsList
  | .obj fs => do
    let maxResults ← decField fs "maxResults" 0 decInt
    let startAt ← decField fs "startAt" 0 decInt
    let total ← decField fs "total" 0 decInt
    let isLast ← decField fs "isLast" false decBool
    let values ← decField fs "values" none (decList decodeBoard)
    .ok ⟨maxResults, startAt, total, isLast, values⟩
  | _ => .error (.jsonType "BoardsList")

def decodeSprint : Json → Except Err Sprint
  | .null => .ok ⟨0, "", none, none, none, 0, "", ""⟩
  | .obj fs => do
    let id ← decField fs "id" 0 decInt
    let name ← decField fs "name" "" decString
    let completeDate ← decField fs "completeDate" none decTimePtr
    let endDate ← decField fs "endDate" none decTimePtr
    let startDate ← decField fs "startDate" none decTimePtr
    let originBoardId ← decField fs "originBoardId" 0 decInt
    let self ← decField fs "self" "" decString
    let state ← decField fs "state" "" decString
    .ok ⟨id, name, completeDate, endDate, startDate, originBoardId, self, state⟩
  | _ => .error (.jsonType "Sprint")

def decodeSprintsResult : Json → Except Err sprintsResult
  | .null => .ok ⟨none⟩
  | .obj fs => do
    let sprints ← decField fs "values" none (decList decodeSprint)
    .ok ⟨sprints⟩
  | _ => .error (.jsonType "sprintsResult")

def decodeEpic (j : Json) : Except Err Epic := .ok ⟨j⟩

def decodeIssue (j : Json) : Except Err Issue := .ok ⟨j⟩

def decodeEpicResults : Json → Except Err epicResults
  | .null => .ok ⟨none⟩
  | .obj fs => do
    let epics ← decField fs "values" none (decList decodeEpic)
    .ok ⟨epics⟩
  | _ => .error (.jsonType "epicResults")

def decodeBacklogResults : Json → Except Err backlogResults
  | .null => .ok ⟨none⟩
  | .obj fs => do
    let backlog ← decField fs "issues" none (decList decodeIssue)
    .ok ⟨backlog⟩
  | _ => .error (.jsonType "backlogResults")

def decodeConfigFilter : Json → Except Err ConfigFilter
  | .null => .ok ⟨"", ""⟩
  | .obj fs => do
    let id ← decField fs "id" "" decString
    let self ← decField fs "self" "" decString
    .ok ⟨id, self⟩
  | _ => .error (.jsonType "ConfigFilter")

def decodeBoardStatus : Json → Except Err BoardStatus
  | .null => .ok ⟨"", ""⟩
  | .obj fs => do
    let id ← decField fs "id" "" decString
    let self ← decField fs "self" "" decString
    .ok ⟨id, self⟩
  | _ => .error (.jsonType "BoardStatus")

def decodeColumn : Json → Except Err Column
  | .null => .ok ⟨"", none, 0, 0⟩
  | .obj fs => do
    let name ← decField fs "name" "" decString
    let statuses ← decField fs "statuses" none (decList decodeBoardStatus)
    let mn ← decField fs "min" 0 decInt
    let mx ← decField fs "max" 0 decInt
    .ok ⟨name, statuses, mn, mx⟩
  | _ => .error (.jsonType "Column")

def decodeColumnConfig : Json → Except Err ColumnConfig
  | .null => .ok ⟨none, ""⟩
  | .obj fs => do
    let columns ← decField fs "columns" none (decList decodeColumn)
    let constraintType ← decField fs "constraintType" "" decString
    .ok ⟨columns, constraintType⟩
  | _ => .error (.jsonType "ColumnConfig")

def decodeBoardEstimationField : Json → Except Err BoardEstimationField
  | .null => .ok ⟨"", ""⟩
  | .obj fs => do
    let fieldId ← decField fs "fieldId" "" decString
    let displayName ← decField fs "displayName" "" decString
    .ok ⟨fieldId, displayName⟩
  | _ => .error (.jsonType "BoardEstimationField")

def decodeEstimation : Json → Except Err Estimation
  | .null => .ok ⟨"", ⟨"", ""⟩⟩
  | .obj fs => do
    let etype ← decField fs "type" "" decString
    let field ← decField fs "field" ⟨"", ""⟩ decodeBoardEstimationField
    .ok ⟨etype, field⟩
  | _ => .error (.jsonType "Estimation")

def decodeRanking : Json → Except Err Ranking
  | .null => .ok ⟨0⟩
  | .obj fs => do
    let rcf ← decField fs "rankCustomFieldId" 0 decInt
    .ok ⟨rcf⟩
  | _ => .error (.jsonType "Ranking")

def decodeBoardConfiguration : Json → Except Err BoardConfiguration
  | .null => .ok zeroBoardConfiguration
  | .obj fs => do
    let id ← decField fs "id" 0 decInt
    let name ← decField fs "name" "" decString
    let self ← decField fs "self" "" decString
    let filter ← decField fs "filter" ⟨"", ""⟩ decodeConfigFilter
    let columnConfig ← decField fs "columnConfig" ⟨none, ""⟩ decodeColumnConfig
    let estimation ← decField fs "estimation" ⟨"", ⟨"", ""⟩⟩ decodeEstimation
    let ranking ← decField fs "ranking" ⟨0⟩ decodeRanking
    .ok ⟨id, name, self, filter, columnConfig, estimation, ranking⟩
  | _ => .error (.jsonType "BoardConfiguration")

def decodeAvatarUrls (j : Json) : Except Err AvatarUrls := .ok ⟨j⟩

/-- Decode a `User`.  The `Password` field carries the JSON tag `-`, so
the codec never reads it from the payload: the decoder leaves it at the
empty string whatever the body contains. -/
def decodeUser : Json → Except Err User
  | .null => .ok zeroUser
  | .obj fs => do
    let self ← decField fs "self" "" decString
    let name ← decField fs "name" "" decString
    let key ← decField fs "key" "" decString
    let emailAddress ← decField fs "emailAddress" "" decString
    let avatarUrls ← decField fs "avatarUrls" ⟨Json.null⟩ decodeAvatarUrls
    let displayName ← decField fs "displayName" "" decString
    let active ← decField fs "active" false decBool
    let timeZone ← decField fs "timeZone" "" decString
    let applicationKeys ← decField fs "applicationKeys" none (decList decString)
    .ok ⟨self, name, "", key, emailAddress, avatarUrls, displayName, active, timeZone, applicationKeys⟩
  | _ => .error (.jsonType "User")

/-- Decode into the `[]User` that `PermissionSearch` pre-allocates with
`make([]User, 0)` (a non-nil empty slice, so no `Option` here). -/
def decodeUserList : Json → Except Err (List User)
  | .null => .ok []
  | .arr xs => xs.mapM decodeUser
  | _ => .error (.jsonType "UserList")

def decodeWebhook : Json → Except Err Webhook
  | .null => .ok zeroWebhook
  | .obj fs => do
    let name ← decField fs "name" "" decString
    let url ← decField fs "url" "" decString
    let events ← decField fs "events" none (decList decString)
    let jqlFilter ← decField fs "jqlFilter" "" decString
    let excludeIssueDetails ← decField fs "excludeIssueDetails" false decBool
    .ok ⟨name, url, events, jqlFilter, excludeIssueDetails⟩
  | _ => .error (.jsonType "Webhook")

/-- Decode into the `[]Webhook` that `GetAll` pre-allocates with
`make([]Webhook, 0)`. -/
def decodeWebhookList : Json → Except Err (List Webhook)
  | .null => .ok []
  | .arr xs => xs.mapM decodeWebhook
  | _ => .error (.jsonType "WebhookList")

/-! ### Transport and shared client

`Client`, `Response`, `NewRequest`, `addOptions` and `Client.Do` live in a
repository file that is not among the given sources; they are modelled
from the specification's description of the Transport collaborator and
the shared-client contract. -/

/-- The body of an HTTP response as the operations consume it: reading it
can fail, or the read text parses as JSON or does not. -/
inductive Body where
  | readFailure : Body
  | bad : Body
  | bytesOf (j : Json) : Body

/-- Modelled from the spec: the `Response` handle returned by the shared
client — the status code together with the readable body. -/
structure Response where
  statusCode : Nat
  body : Body

/-- The record a create operation serializes as the request body; the
serialization itself happens inside the shared client, outside the given
sources, so the record is carried as-is. -/
inductive ReqBody where
  | board (b : Board)
  | user (u : User)
  | webhook (w : Webhook)

/-- A single HTTP request as handed to the Transport. -/
structure Request where
  method : String
  url : String
  body : Option ReqBody

/-- Modelled from the spec: `NewRequest` builds a request from method,
relative URL and optional body.  The spec gives no failure condition for
request construction, so it is total; each operation's early return on a
request-construction error is therefore not exercised by the model. -/
def newRequest (method url : String) (body : Option ReqBody) : Request :=
  ⟨method, url, body⟩

/-- A reply from the external Transport: either the connection itself
failed (no response handle at all) or an HTTP response came back. -/
inductive TransportReply where
  | connFailure (e : Err)
  | httpReply (resp : Response)

/-- The external Transport collaborator. -/
def Transport : Type := Request → TransportReply

/-- Modelled from the spec: `Client.Do` sends the request through the
Transport; a connection failure yields no response handle; a non-2xx
status is surfaced as an error alongside the response handle, without
touching the decode target; on a 2xx response the JSON body is decoded
into the supplied target (when one is supplied), leaving the target at
its initial value when reading or decoding fails. -/
def clientDo (t : Transport) (req : Request) (init : α)
    (decode : Option (Json → Except Err α)) : α × Option Response × Option Err :=
  match t req with
  | .connFailure e => (init, none, some e)
  | .httpReply resp =>
    if 200 ≤ resp.statusCode ∧ resp.statusCode ≤ 299 then
      match decode with
      | none => (init, some resp, none)
      | some dec =>
        match resp.body with
        | .readFailure => (init, some resp, some .bodyRead)
        | .bad => (init, some resp, some .jsonBad)
        | .bytesOf j =>
          match dec j with
          | .ok v => (v, some resp, none)
          | .error e => (init, some resp, some e)
    else (init, some resp, some (.http resp.statusCode))

/-- What a service operation hands back to the caller, together with the
requests it issued through the Transport. -/
structure OpResult (α : Type) where
  decoded : α
  resp : Option Response
  err : Option Err
  sent : List Request

/-- Modelled from the spec: `addOptions` merges the Query Encoder's output
into the path; the encoder's outcome on the options record is taken as a
parameter.  On an encoder failure the path is returned unchanged together
with the error; an empty encoding leaves the path without a `?`. -/
def addOptions (path : String) (enc : Except Err String) : String × Option Err :=
  match enc with
  | .ok q => (if q = "" then path else path ++ "?" ++ q, none)
  | .error e => (path, some e)

/-! ### BoardService operations (board.go) -/

/-- `BoardService.GetAllBoards` (board.go lines 121–136).  Note that the
source reassigns `err` with `NewRequest`'s result before checking it, so
the error returned by `addOptions` is dropped, exactly as modelled here:
the merged-or-unmerged URL is used and the encoder error goes unread. -/
def getAllBoards (t : Transport) (enc : Except Err String) : OpResult (Option BoardsList) :=
  let url := (addOptions "rest/agile/1.0/board" enc).1
  let req := newRequest "GET" url none
  let r := clientDo t req zeroBoardsList (some decodeBoardsList)
  match r.2.2 with
  | some e => ⟨none, r.2.1, some e, [req]⟩
  | none => ⟨some r.1, r.2.1, none, [req]⟩

/-- `BoardService.GetBoard` (board.go lines 142–155). -/
def getBoard (t : Transport) (boardID : Int) : OpResult (Option Board) :=
  let apiEndpoint := "rest/agile/1.0/board/" ++ toString boardID
  let req := newRequest "GET" apiEndpoint none
  let r := clientDo t req zeroBoard (some decodeBoard)
  match r.2.2 with
  | some e => ⟨none, r.2.1, some e, [req]⟩
  | none => ⟨some r.1, r.2.1, none, [req]⟩

/-- `BoardService.CreateBoard` (board.go lines 165–179): POST the input
record, decode the response into a fresh `new(Board)`. -/
def createBoard (t : Transport) (board : Board) : OpResult (Option Board) :=
  let req := newRequest "POST" "rest/agile/1.0/board" (some (.board board))
  let r := clientDo t req zeroBoard (some decodeBoard)
  match r.2.2 with
  | some e => ⟨none, r.2.1, some e, [req]⟩
  | none => ⟨some r.1, r.2.1, none, [req]⟩

/-- `BoardService.GetBoardConfig` (board.go lines 184–194).  The source
returns `result, resp, err` unconditionally: the freshly allocated
configuration is handed back even when `Do` reports an error. -/
def getBoardConfig (t : Transport) (boardID : String) : OpResult (Option BoardConfiguration) :=
  let apiEndpoint := "rest/agile/1.0/board/" ++ boardID ++ "/configuration"
  let req := newRequest "GET" apiEndpoint none
  let r := clientDo t req zeroBoardConfiguration (some decodeBoardConfiguration)
  ⟨some r.1, r.2.1, r.2.2, [req]⟩

/-- `BoardService.DeleteBoard` (board.go lines 199–208): DELETE with no
body, decoded value always nil. -/
def deleteBoard (t : Transport) (boardID : Int) : OpResult (Option Board) :=
  let apiEndpoint := "rest/agile/1.0/board/" ++ toString boardID
  let req := newRequest "DELETE" apiEndpoint none
  let r := clientDo t req () none
  ⟨none, r.2.1, r.2.2, [req]⟩

/-- `BoardService.GetAllSprints` (board.go lines 214–224): the `Sprints`
field of the fresh wrapper (a nil slice until a decode succeeds) is
returned together with the response and error. -/
def getAllSprints (t : Transport) (boardID : String) : OpResult (Option (List Sprint)) :=
  let apiEndpoint := "rest/agile/1.0/board/" ++ boardID ++ "/sprint?maxResults=1000"
  let req := newRequest "GET" apiEndpoint none
  let r := clientDo t req (⟨none⟩ : sprintsResult) (some decodeSprintsResult)
  ⟨r.1.Sprints, r.2.1, r.2.2, [req]⟩

/-- `BoardService.GetEpicsForBoard` (board.go lines 230–240). -/
def getEpicsForBoard (t : Transport) (boardID : String) : OpResult (Option (List Epic)) :=
  let apiEndpoint := "rest/agile/1.0/board/" ++ boardID ++ "/epic?maxResults=1000"
  let req := newRequest "GET" apiEndpoint none
  let r := clientDo t req (⟨none⟩ : epicResults) (some decodeEpicResults)
  ⟨r.1.Epics, r.2.1, r.2.2, [req]⟩

/-- `BoardService.GetIssuesForBacklog` (board.go lines 246–256). -/
def getIssuesForBacklog (t : Transport) (boardID : String) : OpResult (Option (List Issue)) :=
  let apiEndpoint := "rest/agile/1.0/board/" ++ boardID ++ "/backlog?maxResults=1000"
  let req := newRequest "GET" apiEndpoint none
  let r := clientDo t req (⟨none⟩ : backlogResults) (some decodeBacklogResults)
  ⟨r.1.Backlog, r.2.1, r.2.2, [req]⟩

/-- `BoardService.GetIssuesForEpic` (board.go lines 259–269). -/
def getIssuesForEpic (t : Transport) (boardID epicID : String) : OpResult (Option (List Issue)) :=
  let apiEndpoint :=
    "rest/agile/1.0/board/" ++ boardID ++ "/epic/" ++ epicID ++ "/issue?maxResults=1000"
  let req := newRequest "GET" apiEndpoint none
  let r := clientDo t req (⟨none⟩ : backlogResults) (some decodeBacklogResults)
  ⟨r.1.Backlog, r.2.1, r.2.2, [req]⟩

/-- `BoardService.GetIssuesWithoutEpic` (board.go lines 272–282). -/
def getIssuesWithoutEpic (t : Transport) (boardID : String) : OpResult (Option (List Issue)) :=
  let apiEndpoint := "rest/agile/1.0/board/" ++ boardID ++ "/epic/none/issue?maxResults=1000"
  let req := newRequest "GET" apiEndpoint none
  let r := clientDo t req (⟨none⟩ : backlogResults) (some decodeBacklogResults)
  ⟨r.1.Backlog, r.2.1, r.2.2, [req]⟩

/-! ### UserService operations (user.go) and WebhookService (webhook.go) -/

/-- `UserService.Get` (user.go lines 44–57). -/
def userGet (t : Transport) (username : String) : OpResult (Option User) :=
  let apiEndpoint := "/rest/api/2/user?username=" ++ username
  let req := newRequest "GET" apiEndpoint none
  let r := clientDo t req zeroUser (some decodeUser)
  match r.2.2 with
  | some e => ⟨none, r.2.1, some e, [req]⟩
  | none => ⟨some r.1, r.2.1, none, [req]⟩

/-- `UserService.Myself` (user.go lines 62–74). -/
def myself (t : Transport) : OpResult (Option User) :=
  let req := newRequest "GET" "/rest/api/2/myself" none
  let r := clientDo t req zeroUser (some decodeUser)
  match r.2.2 with
  | some e => ⟨none, r.2.1, some e, [req]⟩
  | none => ⟨some r.1, r.2.1, none, [req]⟩

/-- `UserService.Create` (user.go lines 79–102): POST the input record
with `Do(req, nil)`, then read the body itself and unmarshal into a fresh
`new(User)`; a read failure and an unmarshal failure are wrapped into the
two fixed `fmt.Errorf` messages of the source. -/
def userCreate (t : Transport) (user : User) : OpResult (Option User) :=
  let req := newRequest "POST" "/rest/api/2/user" (some (.user user))
  let r := clientDo t req () none
  match r.2.2 with
  | some e => ⟨none, r.2.1, some e, [req]⟩
  | none =>
    match r.2.1 with
    | none => ⟨none, none, none, [req]⟩
    | some resp =>
      match resp.body with
      | .readFailure =>
        ⟨none, some resp, some (.msg "Could not read the returned data"), [req]⟩
      | .bad =>
        ⟨none, some resp, some (.msg "Could not unmarshall the data into struct"), [req]⟩
      | .bytesOf j =>
        match decodeUser j with
        | .error _ =>
          ⟨none, some resp, some (.msg "Could not unmarshall the data into struct"), [req]⟩
        | .ok u => ⟨some u, some resp, none, [req]⟩

/-- `UserService.PermissionSearch` (user.go lines 107–146); the query
string is built byte-for-byte below (`permissionSearchQuery`). -/
def permissionSearchWith (t : Transport) (query : String) : OpResult (Option (List User)) :=
  let apiEndpoint :=
    if query = "" then "/rest/api/2/user/permission/search"
    else "/rest/api/2/user/permission/search" ++ "?" ++ query
  let req := newRequest "GET" apiEndpoint none
  let r := clientDo t req ([] : List User) (some decodeUserList)
  match r.2.2 with
  | some e => ⟨none, r.2.1, some e, [req]⟩
  | none => ⟨some r.1, r.2.1, none, [req]⟩

/-- `WebhookService.Create` (webhook.go lines 28–51): same shape as
`UserService.Create`. -/
def webhookCreate (t : Transport) (webhook : Webhook) : OpResult (Option Webhook) :=
  let req := newRequest "POST" "/rest/webhooks/1.0/webhook" (some (.webhook webhook))
  let r := clientDo t req () none
  match r.2.2 with
  | some e => ⟨none, r.2.1, some e, [req]⟩
  | none =>
    match r.2.1 with
    | none => ⟨none, none, none, [req]⟩
    | some resp =>
      match resp.body with
      | .readFailure =>
        ⟨none, some resp, some (.msg "Could not read the returned data"), [req]⟩
      | .bad =>
        ⟨none, some resp, some (.msg "Could not unmarshall the data into struct"), [req]⟩
      | .bytesOf j =>
        match decodeWebhook j with
        | .error _ =>
          ⟨none, some resp, some (.msg "Could not unmarshall the data into struct"), [req]⟩
        | .ok w => ⟨some w, some resp, none, [req]⟩

/-- `WebhookService.GetAll` (webhook.go lines 56–79): `Do(req, nil)` then
read and unmarshal the body into `make([]Webhook, 0)`. -/
def webhookGetAll (t : Transport) : OpResult (Option (List Webhook)) :=
  let req := newRequest "GET" "/rest/webhooks/1.0/webhook" none
  let r := clientDo t req () none
  match r.2.2 with
  | some e => ⟨none, r.2.1, some e, [req]⟩
  | none =>
    match r.2.1 with
    | none => ⟨none, none, none, [req]⟩
    | some resp =>
      match resp.body with
      | .readFailure =>
        ⟨none, some resp, some (.msg "Could not read the returned data"), [req]⟩
      | .bad =>
        ⟨none, some resp, some (.msg "Could not unmarshall the data into struct"), [req]⟩
      | .bytesOf j =>
        match decodeWebhookList j with
        | .error _ =>
          ⟨none, some resp, some (.msg "Could not unmarshall the data into struct"), [req]⟩
        | .ok ws => ⟨some ws, some resp, none, [req]⟩

/-! ### The query string built by `UserService.PermissionSearch`

Go strings are byte sequences and `net/url` escapes byte-by-byte, so the
query construction of user.go lines 109–133 is modelled on byte lists:
`url.Values.Encode` percent-escapes keys and values and emits the pairs
in sorted key order; `url.ParseQuery` splits on `&` and the first `=` and
unescapes both halves. -/

/-- A Go string viewed as its bytes. -/
def GoStr : Type := List Nat

/-- Every byte of a Go string is below 256. -/
def ValidBytes (l : List Nat) : Prop := ∀ b ∈ l, b < 256

instance (l : List Nat) : Decidable (ValidBytes l) :=
  inferInstanceAs (Decidable (∀ b ∈ l, b < 256))

/-- Bytes of an ASCII literal. -/
def ascii (s : String) : List Nat := s.data.map Char.toNat

/-- Decimal digits of a natural number, as ASCII bytes. -/
def natToDigits (n : Nat) : List Nat :=
  if n < 10 then [48 + n] else natToDigits (n / 10) ++ [48 + n % 10]
termination_by n
decreasing_by exact Nat.div_lt_self (by omega) (by omega)

/-- `strconv.Itoa`: decimal text of a Go int, as ASCII bytes. -/
def itoa (n : Int) : List Nat :=
  if n < 0 then 45 :: natToDigits (-n).toNat else natToDigits n.toNat

/-- The bytes `net/url` leaves unescaped in a query component:
alphanumerics and `-` `_` `.` `~`. -/
def isUnreserved (c : Nat) : Bool :=
  (97 ≤ c && c ≤ 122)
  || (65 ≤ c && c ≤ 90)
  || (48 ≤ c && c ≤ 57)
  || c == 45 || c == 95 || c == 46 || c == 126

/-- Upper-case hex digit of a value below 16, as an ASCII byte. -/
def hexUpperDigit (n : Nat) : Nat := if n < 10 then 48 + n else 55 + n

/-- `url.QueryEscape` on one byte: unreserved bytes stay, space becomes
`+`, everything else becomes `%XX` with upper-case hex. -/
def escapeByte (c : Nat) : List Nat :=
  if isUnreserved c then [c]
  else if c = 32 then [43]
  else [37, hexUpperDigit (c / 16), hexUpperDigit (c % 16)]

/-- `url.QueryEscape` on a byte string. -/
def escapeBytes : List Nat → List Nat
  | [] => []
  | c :: rest => escapeByte c ++ escapeBytes rest

/-- Value of an ASCII hex digit. -/
def hexVal (c : Nat) : Option Nat :=
  if 48 ≤ c ∧ c ≤ 57 then some (c - 48)
  else if 65 ≤ c ∧ c ≤ 70 then some (c - 55)
  else if 97 ≤ c ∧ c ≤ 102 then some (c - 87)
  else none

/-- `url.QueryUnescape`: `%XX` becomes the byte, `+` becomes space, an
incomplete or non-hex `%` sequence is an error. -/
def unescapeBytes : List Nat → Option (List Nat)
  | [] => some []
  | c :: rest =>
    if c = 37 then
      match rest with
      | a :: b :: rest2 =>
        match hexVal a, hexVal b with
        | some ha, some hb => (unescapeBytes rest2).map fun l => (16 * ha + hb) :: l
        | _, _ => none
      | _ => none
    else if c = 43 then (unescapeBytes rest).map (fun l => 32 :: l)
    else (unescapeBytes rest).map (fun l => c :: l)

/-- `k=v` with both halves escaped, as `url.Values.Encode` emits one
pair. -/
def encodePair (k v : List Nat) : List Nat := escapeBytes k ++ 61 :: escapeBytes v

/-- Join encoded pairs with `&`. -/
def joinAmp : List (List Nat) → List Nat
  | [] => []
  | [x] => x
  | x :: xs => x ++ 38 :: joinAmp xs

/-- `url.Values.Encode` on an already key-sorted pair list. -/
def valuesEncode (pairs : List (List Nat × List Nat)) : List Nat :=
  joinAmp (pairs.map fun p => encodePair p.1 p.2)

/-- `strings.Cut` on a byte: text before the first occurrence, and the
text after it when found. -/
def cutByte (sep : Nat) : List Nat → List Nat × Option (List Nat)
  | [] => ([], none)
  | c :: rest =>
    if c = sep then ([], some rest)
    else
      let r := cutByte sep rest
      (c :: r.1, r.2)

/-- Split a query on `&`, keeping empty segments (the parser skips them),
as the `for query != ""` loop of `url.ParseQuery` visits them. -/
def splitAmp : List Nat → List (List Nat)
  | [] => [[]]
  | c :: rest =>
    if c = 38 then [] :: splitAmp rest
    else
      match splitAmp rest with
      | [] => [[c]]
      | s :: ss => (c :: s) :: ss

/-- The body of the `url.ParseQuery` loop on each `&`-segment: reject a
segment containing `;`, skip an empty segment, cut on the first `=`,
unescape key and value (an unescape failure records the error and skips
the pair).  Returns the pairs in encounter order and whether any error
occurred. -/
def processSegs : List (List Nat) → List (List Nat × List Nat) × Bool
  | [] => ([], false)
  | seg :: rest =>
    let r := processSegs rest
    if 59 ∈ seg then (r.1, true)
    else if seg = [] then r
    else
      let kv := cutByte 61 seg
      let vRaw := kv.2.getD []
      match unescapeBytes kv.1, unescapeBytes vRaw with
      | some k, some v => ((k, v) :: r.1, r.2)
      | _, _ => (r.1, true)

/-- `url.ParseQuery`. -/
def parseQuery (q : List Nat) : List (List Nat × List Nat) × Bool :=
  processSegs (splitAmp q)

/-- `UserPermissionSearch` (user.go lines 32–39), with the string fields
as byte lists. -/
structure UserPermissionSearch where
  Username : List Nat
  Permissions : List Nat
  IssueKey : List Nat
  ProjectKey : List Nat
  StartAt : Int
  MaxResults : Int
deriving DecidableEq, Repr

def zeroUserPermissionSearch : UserPermissionSearch := ⟨[], [], [], [], 0, 0⟩

/-- The key/value pairs `PermissionSearch` (user.go lines 109–129) puts
into `url.Values`, listed in the sorted key order in which
`url.Values.Encode` emits them (the six fixed keys sort as `issueKey`,
`maxResults`, `permissions`, `projectKey`, `startAt`, `username`).  Note
the `maxResults` pair is unconditional: a zero `MaxResults` is replaced
by the fixed default `1000`. -/
def permissionSearchPairs (s : UserPermissionSearch) : List (List Nat × List Nat) :=
  (if s.IssueKey ≠ [] then [(ascii "issueKey", s.IssueKey)] else [])
  ++ [(ascii "maxResults", if s.MaxResults ≠ 0 then itoa s.MaxResults else ascii "1000")]
  ++ (if s.Permissions ≠ [] then [(ascii "permissions", s.Permissions)] else [])
  ++ (if s.ProjectKey ≠ [] then [(ascii "projectKey", s.ProjectKey)] else [])
  ++ (if s.StartAt ≠ 0 then [(ascii "startAt", itoa s.StartAt)] else [])
  ++ (if s.Username ≠ [] then [(ascii "username", s.Username)] else [])

/-- The query string `PermissionSearch` builds (user.go line 130). -/
def permissionSearchQuery (s : UserPermissionSearch) : List Nat :=
  valuesEncode (permissionSearchPairs s)

/-- The pair list the specification's Query Encoder contract describes
(spec section 4.2): only fields whose value differs from the zero
default, under their declared parameter names, in key order.  This
definition follows the spec's words, for comparison with
`permissionSearchPairs`, which follows the source. -/
def specPermissionSearchPairs (s : UserPermissionSearch) : List (List Nat × List Nat) :=
  (if s.IssueKey ≠ [] then [(ascii "issueKey", s.IssueKey)] else [])
  ++ (if s.MaxResults ≠ 0 then [(ascii "maxResults", itoa s.MaxResults)] else [])
  ++ (if s.Permissions ≠ [] then [(ascii "permissions", s.Permissions)] else [])
  ++ (if s.ProjectKey ≠ [] then [(ascii "projectKey", s.ProjectKey)] else [])
  ++ (if s.StartAt ≠ 0 then [(ascii "startAt", itoa s.StartAt)] else [])
  ++ (if s.Username ≠ [] then [(ascii "username", s.Username)] else [])

/-- Byte-wise lexicographic order on byte strings, as Go compares map
keys for `url.Values.Encode`. -/
def lexLe : List Nat → List Nat → Bool
  | [], _ => true
  | _ :: _, [] => false
  | a :: x, b :: y => decide (a < b) || (a == b && lexLe x y)

/-- Render query bytes into the endpoint string (each byte below 256 is a
valid code point). -/
def stringOfBytes (l : List Nat) : String := ⟨l.map Char.ofNat⟩

/-- `UserService.PermissionSearch` (user.go lines 107–146) end to end. -/
def permissionSearch (t : Transport) (search : UserPermissionSearch) :
    OpResult (Option (List User)) :=
  permissionSearchWith t (stringOfBytes (permissionSearchQuery search))

/-! ### Helper facts about the shared client -/

/-- A Transport that answers every request with the same response. -/
def constTransport (resp : Response) : Transport := fun _ => .httpReply resp

theorem clientDo_const_non2xx {α : Type} (resp : Response) (req : Request) (init : α)
    (decode : Option (Json → Except Err α))
    (h : ¬(200 ≤ resp.statusCode ∧ resp.statusCode ≤ 299)) :
    clientDo (constTransport resp) req init decode =
      (init, some resp, some (.http resp.statusCode)) := by
  show (if 200 ≤ resp.statusCode ∧ resp.statusCode ≤ 299 then _ else _) = _
  rw [if_neg h]

/-! ### C1: behaviour of the Get-style operations on a 404 -/

/-- C1 (amended): when the Transport reports a 404, every listed Get-style
operation except `GetBoardConfig` returns a nil decoded value together
with the non-nil response handle and a non-nil error; `GetBoardConfig`
(board.go line 193 returns `result, resp, err` unconditionally) instead
hands back the freshly allocated zero-valued configuration, still with
the non-nil response handle and the non-nil error. -/
theorem get_ops_on_404 (resp : Response) (h404 : resp.statusCode = 404)
    (enc : Except Err String) (boardID epicID username : String) (boardNum : Int)
    (search : UserPermissionSearch) :
    ((getAllBoards (constTransport resp) enc).decoded = none
      ∧ (getAllBoards (constTransport resp) enc).resp = some resp
      ∧ (getAllBoards (constTransport resp) enc).err = some (.http 404))
    ∧ ((getBoard (constTransport resp) boardNum).decoded = none
      ∧ (getBoard (constTransport resp) boardNum).resp = some resp
      ∧ (getBoard (constTransport resp) boardNum).err = some (.http 404))
    ∧ ((getBoardConfig (constTransport resp) boardID).decoded = some zeroBoardConfiguration
      ∧ (getBoardConfig (constTransport resp) boardID).resp = some resp
      ∧ (getBoardConfig (constTransport resp) boardID).err = some (.http 404))
    ∧ ((getAllSprints (constTransport resp) boardID).decoded = none
      ∧ (getAllSprints (constTransport resp) boardID).resp = some resp
      ∧ (getAllSprints (constTransport resp) boardID).err = some (.http 404))
    ∧ ((getEpicsForBoard (constTransport resp) boardID).decoded = none
      ∧ (getEpicsForBoard (constTransport resp) boardID).resp = some resp
      ∧ (getEpicsForBoard (constTransport resp) boardID).err = some (.http 404))
    ∧ ((getIssuesForBacklog (constTransport resp) boardID).decoded = none
      ∧ (getIssuesForBacklog (constTransport resp) boardID).resp = some resp
      ∧ (getIssuesForBacklog (constTransport resp) boardID).err = some (.http 404))
    ∧ ((getIssuesForEpic (constTransport resp) boardID epicID).decoded = none
      ∧ (getIssuesForEpic (constTransport resp) boardID epicID).resp = some resp
      ∧ (getIssuesForEpic (constTransport resp) boardID epicID).err = some (.http 404))
    ∧ ((getIssuesWithoutEpic (constTransport resp) boardID).decoded = none
      ∧ (getIssuesWithoutEpic (constTransport resp) boardID).resp = some resp
      ∧ (getIssuesWithoutEpic (constTransport resp) boardID).err = some (.http 404))
    ∧ ((userGet (constTransport resp) username).decoded = none
      ∧ (userGet (constTransport resp) username).resp = some resp
      ∧ (userGet (constTransport resp) username).err = some (.http 404))
    ∧ ((myself (constTransport resp)).decoded = none
      ∧ (myself (constTransport resp)).resp = some resp
      ∧ (myself (constTransport resp)).err = some (.http 404))
    ∧ ((permissionSearch (constTransport resp) search).decoded = none
      ∧ (permissionSearch (constTransport resp) search).resp = some resp
      ∧ (permissionSearch (constTransport resp) search).err = some (.http 404))
    ∧ ((webhookGetAll (constTransport resp)).decoded = none
      ∧ (webhookGetAll (constTransport resp)).resp = some resp
      ∧ (webhookGetAll (constTransport resp)).err = some (.http 404)) := by
  have hn : ¬(200 ≤ resp.statusCode ∧ resp.statusCode ≤ 299) := by omega
  have hdo : ∀ {α : Type} (req : Request) (init : α)
      (decode : Option (Json → Except Err α)),
      clientDo (constTransport resp) req init decode =
        (init, some resp, some (.http resp.statusCode)) :=
    fun req init decode => clientDo_const_non2xx resp req init decode hn
  simp [getAllBoards, getBoard, getBoardConfig, getAllSprints, getEpicsForBoard,
    getIssuesForBacklog, getIssuesForEpic, getIssuesWithoutEpic, userGet, myself,
    permissionSearch, permissionSearchWith, webhookGetAll, hdo, h404]

/-- C1 witness: the amended behaviour at a concrete 404 response. -/
theorem get_ops_on_404_witness :
    (getAllSprints (constTransport ⟨404, .bad⟩) "1").decoded = none
    ∧ (getBoardConfig (constTransport ⟨404, .bad⟩) "1").decoded = some zeroBoardConfiguration
    ∧ (getBoardConfig (constTransport ⟨404, .bad⟩) "1").err = some (.http 404) :=
  ⟨(get_ops_on_404 ⟨404, .bad⟩ rfl (.ok "") "1" "2" "u" 1 zeroUserPermissionSearch).2.2.2.1.1,
   (get_ops_on_404 ⟨404, .bad⟩ rfl (.ok "") "1" "2" "u" 1 zeroUserPermissionSearch).2.2.1.1,
   (get_ops_on_404 ⟨404, .bad⟩ rfl (.ok "") "1" "2" "u" 1 zeroUserPermissionSearch).2.2.1.2.2⟩

/-- C1 counterexample: on a 404 the claim demands a nil decoded value
from `GetBoardConfig`, but the operation returns the non-nil freshly
allocated configuration (board.go line 193). -/
theorem getBoardConfig_404_counterexample :
    (getBoardConfig (constTransport ⟨404, .bad⟩) "1").decoded ≠ none
    ∧ (getBoardConfig (constTransport ⟨404, .bad⟩) "1").err = some (.http 404) := by
  decide

/-! ### C4: list-wrapper unwrapping on the sample body -/

/-- The sample wrapper body of the spec. -/
def sampleBoardsBody : Json :=
  .obj [("values", .arr [.obj [("id", .num 1)], .obj [("id", .num 2)]]),
        ("total", .num 2), ("isLast", .bool true)]

/-- C4: on the body `values:[id:1, id:2], total:2, isLast:true`,
`GetAllBoards` returns a `BoardsList` whose `Values` holds exactly the
two boards in their original order (ids 1 then 2, every other field at
its zero value) and whose `Total` is 2. -/
theorem getAllBoards_unwraps_sample_list :
    (getAllBoards (constTransport ⟨200, .bytesOf sampleBoardsBody⟩) (.ok "")).decoded
      = some ⟨0, 0, 2, true, some [⟨1, "", "", "", 0⟩, ⟨2, "", "", "", 0⟩]⟩
    ∧ ((getAllBoards (constTransport ⟨200, .bytesOf sampleBoardsBody⟩) (.ok "")).decoded.map
        fun bl => bl.Total) = some 2
    ∧ ((getAllBoards (constTransport ⟨200, .bytesOf sampleBoardsBody⟩) (.ok "")).decoded.map
        fun bl => (bl.Values.getD []).length) = some 2 := by
  decide

/-! ### C7: DeleteBoard -/

/-- C7: for every Transport behaviour and board id, `DeleteBoard` issues
exactly one DELETE request with no request body and always returns a nil
decoded value, passing back exactly the response handle and error of the
shared client's `Do`. -/
theorem deleteBoard_one_delete_nil_decoded (t : Transport) (boardID : Int) :
    (deleteBoard t boardID).decoded = none
    ∧ (deleteBoard t boardID).sent
        = [newRequest "DELETE" ("rest/agile/1.0/board/" ++ toString boardID) none]
    ∧ (deleteBoard t boardID).resp
        = (clientDo t (newRequest "DELETE" ("rest/agile/1.0/board/" ++ toString boardID) none)
            () none).2.1
    ∧ (deleteBoard t boardID).err
        = (clientDo t (newRequest "DELETE" ("rest/agile/1.0/board/" ++ toString boardID) none)
            () none).2.2 :=
  ⟨rfl, rfl, rfl, rfl⟩

/-! ### C8: the dropped addOptions error in GetAllBoards -/

/-- C8 (divergence witness): when option encoding fails, `addOptions`
does report the error, but `GetAllBoards` reassigns `err` with
`NewRequest`'s result (board.go lines 123–124) before checking it, so
the operation proceeds with the unmerged URL and, on a successful round
trip, returns no error at all: the encoder failure is silently dropped. -/
theorem getAllBoards_drops_encoder_error :
    (addOptions "rest/agile/1.0/board" (.error (.msg "options encoding failed"))).2
        = some (.msg "options encoding failed")
    ∧ (getAllBoards (constTransport ⟨200, .bytesOf (.obj [])⟩)
        (.error (.msg "options encoding failed"))).err = none
    ∧ (getAllBoards (constTransport ⟨200, .bytesOf (.obj [])⟩)
        (.error (.msg "options encoding failed"))).decoded = some zeroBoardsList
    ∧ (getAllBoards (constTransport ⟨200, .bytesOf (.obj [])⟩)
        (.error (.msg "options encoding failed"))).sent
        = [newRequest "GET" "rest/agile/1.0/board" none] :=
  ⟨rfl, rfl, rfl, rfl⟩

/-! ### C5: create operations decode into a fresh record -/

/-- C5: on a successful round trip each create operation returns the
decode of the response body into a freshly allocated zero-valued record;
the returned value does not depend on the input record at all, so
server-assigned fields can appear only in the returned record, and the
input record (passed by value here, serialized unchanged by the shared
client in the source) is left untouched. -/
theorem create_ops_return_fresh_record (resp : Response) (j : Json)
    (hb : resp.body = .bytesOf j) (h2 : 200 ≤ resp.statusCode ∧ resp.statusCode ≤ 299)
    (b b' : Board) (hB : decodeBoard j = .ok b')
    (u u' : User) (hU : decodeUser j = .ok u')
    (w w' : Webhook) (hW : decodeWebhook j = .ok w') :
    (createBoard (constTransport resp) b).decoded = some b'
    ∧ (∀ b₁ b₂ : Board, (createBoard (constTransport resp) b₁).decoded
        = (createBoard (constTransport resp) b₂).decoded)
    ∧ (userCreate (constTransport resp) u).decoded = some u'
    ∧ (∀ u₁ u₂ : User, (userCreate (constTransport resp) u₁).decoded
        = (userCreate (constTransport resp) u₂).decoded)
    ∧ (webhookCreate (constTransport resp) w).decoded = some w'
    ∧ (∀ w₁ w₂ : Webhook, (webhookCreate (constTransport resp) w₁).decoded
        = (webhookCreate (constTransport resp) w₂).decoded) := by
  obtain ⟨sc, body⟩ := resp
  dsimp only at hb h2
  subst hb
  refine ⟨?_, ?_, ?_, ?_, ?_, ?_⟩ <;> intros <;>
    simp [createBoard, userCreate, webhookCreate, clientDo, constTransport, h2, hB, hU, hW]

/-- C5 witness: at a concrete empty-object response body the three create
operations return the zero-valued records, distinct from the inputs. -/
theorem create_ops_return_fresh_record_witness :
    (createBoard (constTransport ⟨200, .bytesOf (.obj [])⟩) ⟨5, "s", "n", "scrum", 7⟩).decoded
      = some zeroBoard
    ∧ (userCreate (constTransport ⟨200, .bytesOf (.obj [])⟩) zeroUser).decoded = some zeroUser
    ∧ (webhookCreate (constTransport ⟨200, .bytesOf (.obj [])⟩)
        ⟨"hook", "http://x", none, "", true⟩).decoded = some zeroWebhook :=
  ⟨(create_ops_return_fresh_record ⟨200, .bytesOf (.obj [])⟩ (.obj []) rfl (by decide)
      ⟨5, "s", "n", "scrum", 7⟩ zeroBoard rfl zeroUser zeroUser rfl
      ⟨"hook", "http://x", none, "", true⟩ zeroWebhook rfl).1,
   (create_ops_return_fresh_record ⟨200, .bytesOf (.obj [])⟩ (.obj []) rfl (by decide)
      ⟨5, "s", "n", "scrum", 7⟩ zeroBoard rfl zeroUser zeroUser rfl
      ⟨"hook", "http://x", none, "", true⟩ zeroWebhook rfl).2.2.1,
   (create_ops_return_fresh_record ⟨200, .bytesOf (.obj [])⟩ (.obj []) rfl (by decide)
      ⟨5, "s", "n", "scrum", 7⟩ zeroBoard rfl zeroUser zeroUser rfl
      ⟨"hook", "http://x", none, "", true⟩ zeroWebhook rfl).2.2.2.2.1⟩

/-! ### C6: error taxonomy of the self-reading create operations -/

/-- C6: for `UserService.Create` and `WebhookService.Create`, a body-read
failure yields the wrapped "Could not read the returned data" error and a
malformed or shape-mismatched JSON body yields the wrapped "Could not
unmarshall the data into struct" error; each comes with a nil decoded
value and the non-nil response handle, and the two wrapped errors are
distinct from each other and from every transport-level error. -/
theorem create_ops_error_taxonomy (rR rB rJ : Response) (j : Json) (eU eW : Err)
    (hR : rR.body = .readFailure) (h2R : 200 ≤ rR.statusCode ∧ rR.statusCode ≤ 299)
    (hB : rB.body = .bad) (h2B : 200 ≤ rB.statusCode ∧ rB.statusCode ≤ 299)
    (hJ : rJ.body = .bytesOf j) (h2J : 200 ≤ rJ.statusCode ∧ rJ.statusCode ≤ 299)
    (hdU : decodeUser j = .error eU) (hdW : decodeWebhook j = .error eW)
    (u : User) (w : Webhook) :
    ((userCreate (constTransport rR) u).err = some (.msg "Could not read the returned data")
      ∧ (userCreate (constTransport rR) u).decoded = none
      ∧ (userCreate (constTransport rR) u).resp = some rR)
    ∧ ((userCreate (constTransport rB) u).err
          = some (.msg "Could not unmarshall the data into struct")
      ∧ (userCreate (constTransport rB) u).decoded = none
      ∧ (userCreate (constTransport rB) u).resp = some rB)
    ∧ ((userCreate (constTransport rJ) u).err
          = some (.msg "Could not unmarshall the data into struct")
      ∧ (userCreate (constTransport rJ) u).decoded = none
      ∧ (userCreate (constTransport rJ) u).resp = some rJ)
    ∧ ((webhookCreate (constTransport rR) w).err
          = some (.msg "Could not read the returned data")
      ∧ (webhookCreate (constTransport rR) w).decoded = none
      ∧ (webhookCreate (constTransport rR) w).resp = some rR)
    ∧ ((webhookCreate (constTransport rB) w).err
          = some (.msg "Could not unmarshall the data into struct")
      ∧ (webhookCreate (constTransport rB) w).decoded = none
      ∧ (webhookCreate (constTransport rB) w).resp = some rB)
    ∧ ((webhookCreate (constTransport rJ) w).err
          = some (.msg "Could not unmarshall the data into struct")
      ∧ (webhookCreate (constTransport rJ) w).decoded = none
      ∧ (webhookCreate (constTransport rJ) w).resp = some rJ)
    ∧ (Err.msg "Could not read the returned data"
        ≠ Err.msg "Could not unmarshall the data into struct")
    ∧ (∀ status : Nat, Err.msg "Could not read the returned data" ≠ .http status
        ∧ Err.msg "Could not unmarshall the data into struct" ≠ .http status)
    ∧ (∀ m : String, Err.msg "Could not read the returned data" ≠ .conn m
        ∧ Err.msg "Could not unmarshall the data into struct" ≠ .conn m) := by
  obtain ⟨scR, bodyR⟩ := rR
  obtain ⟨scB, bodyB⟩ := rB
  obtain ⟨scJ, bodyJ⟩ := rJ
  dsimp only at hR h2R hB h2B hJ h2J
  subst hR hB hJ
  refine ⟨?_, ?_, ?_, ?_, ?_, ?_, ?_, ?_, ?_⟩ <;> intros <;>
    simp [userCreate, webhookCreate, clientDo, constTransport, h2R, h2B, h2J, hdU, hdW]

/-- C6 witness: the taxonomy at concrete responses (a failed body read, a
malformed body, and a well-formed body of the wrong shape). -/
theorem create_ops_error_taxonomy_witness :
    (userCreate (constTransport ⟨200, .readFailure⟩) zeroUser).err
      = some (.msg "Could not read the returned data")
    ∧ (webhookCreate (constTransport ⟨200, .bad⟩) zeroWebhook).err
      = some (.msg "Could not unmarshall the data into struct")
    ∧ (userCreate (constTransport ⟨200, .bytesOf (.arr [])⟩) zeroUser).err
      = some (.msg "Could not unmarshall the data into struct") :=
  ⟨(create_ops_error_taxonomy ⟨200, .readFailure⟩ ⟨200, .bad⟩ ⟨200, .bytesOf (.arr [])⟩
      (.arr []) (.jsonType "User") (.jsonType "Webhook") rfl (by decide) rfl (by decide)
      rfl (by decide) rfl rfl zeroUser zeroWebhook).1.1,
   (create_ops_error_taxonomy ⟨200, .readFailure⟩ ⟨200, .bad⟩ ⟨200, .bytesOf (.arr [])⟩
      (.arr []) (.jsonType "User") (.jsonType "Webhook") rfl (by decide) rfl (by decide)
      rfl (by decide) rfl rfl zeroUser zeroWebhook).2.2.2.2.1.1,
   (create_ops_error_taxonomy ⟨200, .readFailure⟩ ⟨200, .bad⟩ ⟨200, .bytesOf (.arr [])⟩
      (.arr []) (.jsonType "User") (.jsonType "Webhook") rfl (by decide) rfl (by decide)
      rfl (by decide) rfl rfl zeroUser zeroWebhook).2.2.1.1⟩

/-! ### C3: the fixed pagination ceiling -/

/-- Text after the last `?` of a character list, if any `?` occurs. -/
def afterLastQmarkAux : List Char → Option (List Char)
  | [] => none
  | c :: rest =>
    match afterLastQmarkAux rest with
    | some r => some r
    | none => if c = '?' then some rest else none

/-- The query literal an endpoint string carries: the text after its last
`?`, empty when there is none. -/
def queryLiteral (s : String) : List Char := (afterLastQmarkAux s.data).getD []

theorem afterLastQmarkAux_append (x y : List Char) :
    afterLastQmarkAux (x ++ y) =
      match afterLastQmarkAux y with
      | some r => some r
      | none => (afterLastQmarkAux x).map (fun l => l ++ y) := by
  induction x with
  | nil => cases h : afterLastQmarkAux y <;> simp [afterLastQmarkAux, h]
  | cons c cs ih =>
    simp only [List.cons_append, afterLastQmarkAux]
    rw [show (cs.append y : List Char) = cs ++ y from rfl, ih]
    cases hy : afterLastQmarkAux y <;> cases hcs : afterLastQmarkAux cs <;>
      simp [hy, hcs]

theorem aux_append_qlit (x : List Char) :
    afterLastQmarkAux (x ++ '?' :: "maxResults=1000".data) = some "maxResults=1000".data := by
  rw [afterLastQmarkAux_append,
    show afterLastQmarkAux ('?' :: "maxResults=1000".data)
        = some "maxResults=1000".data from rfl]

theorem queryLiteral_sprint (boardID : String) :
    queryLiteral ("rest/agile/1.0/board/" ++ boardID ++ "/sprint?maxResults=1000")
      = "maxResults=1000".data := by
  unfold queryLiteral
  rw [String.data_append, String.data_append,
    show "/sprint?maxResults=1000".data
        = "/sprint".data ++ '?' :: "maxResults=1000".data from rfl,
    ← List.append_assoc, aux_append_qlit]
  rfl

theorem queryLiteral_epics (boardID : String) :
    queryLiteral ("rest/agile/1.0/board/" ++ boardID ++ "/epic?maxResults=1000")
      = "maxResults=1000".data := by
  unfold queryLiteral
  rw [String.data_append, String.data_append,
    show "/epic?maxResults=1000".data
        = "/epic".data ++ '?' :: "maxResults=1000".data from rfl,
    ← List.append_assoc, aux_append_qlit]
  rfl

theorem queryLiteral_backlog (boardID : String) :
    queryLiteral ("rest/agile/1.0/board/" ++ boardID ++ "/backlog?maxResults=1000")
      = "maxResults=1000".data := by
  unfold queryLiteral
  rw [String.data_append, String.data_append,
    show "/backlog?maxResults=1000".data
        = "/backlog".data ++ '?' :: "maxResults=1000".data from rfl,
    ← List.append_assoc, aux_append_qlit]
  rfl

theorem queryLiteral_epicIssue (boardID epicID : String) :
    queryLiteral ("rest/agile/1.0/board/" ++ boardID ++ "/epic/" ++ epicID
        ++ "/issue?maxResults=1000")
      = "maxResults=1000".data := by
  unfold queryLiteral
  rw [String.data_append, String.data_append, String.data_append, String.data_append,
    show "/issue?maxResults=1000".data
        = "/issue".data ++ '?' :: "maxResults=1000".data from rfl,
    ← List.append_assoc, aux_append_qlit]
  rfl

theorem queryLiteral_noEpicIssue (boardID : String) :
    queryLiteral ("rest/agile/1.0/board/" ++ boardID ++ "/epic/none/issue?maxResults=1000")
      = "maxResults=1000".data := by
  unfold queryLiteral
  rw [String.data_append, String.data_append,
    show "/epic/none/issue?maxResults=1000".data
        = "/epic/none/issue".data ++ '?' :: "maxResults=1000".data from rfl,
    ← List.append_assoc, aux_append_qlit]
  rfl

/-- C3: each "fetch everything under a parent" operation issues exactly
one GET whose trailing query literal (the text after the last `?` of the
endpoint it builds) is the fixed `maxResults=1000`, whatever the
caller-supplied identifiers are: the ceiling is a source literal, not
derived from any caller input. -/
theorem fetch_ops_pin_maxResults_1000 (t : Transport) (boardID epicID : String) :
    ((getAllSprints t boardID).sent.map fun r => (r.method, queryLiteral r.url))
        = [("GET", "maxResults=1000".data)]
    ∧ ((getEpicsForBoard t boardID).sent.map fun r => (r.method, queryLiteral r.url))
        = [("GET", "maxResults=1000".data)]
    ∧ ((getIssuesForBacklog t boardID).sent.map fun r => (r.method, queryLiteral r.url))
        = [("GET", "maxResults=1000".data)]
    ∧ ((getIssuesForEpic t boardID epicID).sent.map fun r => (r.method, queryLiteral r.url))
        = [("GET", "maxResults=1000".data)]
    ∧ ((getIssuesWithoutEpic t boardID).sent.map fun r => (r.method, queryLiteral r.url))
        = [("GET", "maxResults=1000".data)] := by
  refine ⟨?_, ?_, ?_, ?_, ?_⟩ <;>
    simp [getAllSprints, getEpicsForBoard, getIssuesForBacklog, getIssuesForEpic,
      getIssuesWithoutEpic, newRequest, queryLiteral_sprint, queryLiteral_epics,
      queryLiteral_backlog, queryLiteral_epicIssue, queryLiteral_noEpicIssue]

/-! ### C9: the credential field is never echoed back -/

theorem except_bind_ok {α β γ : Type} (x : Except γ α) (f : α → Except γ β) (r : β)
    (h : (x >>= f) = .ok r) : ∃ w, x = .ok w ∧ f w = .ok r := by
  match x, h with
  | .ok w, h => exact ⟨w, rfl, h⟩
  | .error e, h => simp [Bind.bind, Except.bind] at h

/-- The decoder never reads a password out of the payload: the JSON tag
`-` on `Password` excludes the field from decoding. -/
theorem decodeUser_password_empty (j : Json) (u : User) (h : decodeUser j = .ok u) :
    u.Password = "" := by
  cases j with
  | null =>
    simp only [decodeUser] at h
    injection h with h'
    rw [← h']
    rfl
  | obj fs =>
    simp only [decodeUser] at h
    obtain ⟨self, h1, h⟩ := except_bind_ok _ _ _ h
    obtain ⟨name, h2, h⟩ := except_bind_ok _ _ _ h
    obtain ⟨key, h3, h⟩ := except_bind_ok _ _ _ h
    obtain ⟨emailAddress, h4, h⟩ := except_bind_ok _ _ _ h
    obtain ⟨avatarUrls, h5, h⟩ := except_bind_ok _ _ _ h
    obtain ⟨displayName, h6, h⟩ := except_bind_ok _ _ _ h
    obtain ⟨active, h7, h⟩ := except_bind_ok _ _ _ h
    obtain ⟨timeZone, h8, h⟩ := except_bind_ok _ _ _ h
    obtain ⟨applicationKeys, h9, h⟩ := except_bind_ok _ _ _ h
    injection h with h'
    rw [← h']
  | bool b => simp [decodeUser] at h
  | num n => simp [decodeUser] at h
  | str s => simp [decodeUser] at h
  | arr xs => simp [decodeUser] at h

theorem decodeUserList_password_empty (j : Json) (us : List User)
    (h : decodeUserList j = .ok us) : ∀ u ∈ us, u.Password = "" := by
  cases j with
  | null =>
    simp only [decodeUserList] at h
    injection h with h'
    rw [← h']
    intro u hu
    simp at hu
  | arr xs =>
    simp only [decodeUserList] at h
    induction xs generalizing us with
    | nil =>
      rw [List.mapM_nil] at h
      injection h with h'
      rw [← h']
      intro u hu
      simp at hu
    | cons a l ih =>
      rw [List.mapM_cons] at h
      obtain ⟨u0, h1, h⟩ := except_bind_ok _ _ _ h
      obtain ⟨us0, h2, h⟩ := except_bind_ok _ _ _ h
      injection h with h'
      rw [← h']
      intro u hu
      rcases List.mem_cons.mp hu with rfl | hu
      · exact decodeUser_password_empty a u h1
      · exact ih us0 h2 u hu
  | bool b => simp [decodeUserList] at h
  | num n => simp [decodeUserList] at h
  | str s => simp [decodeUserList] at h
  | obj fs => simp [decodeUserList] at h

/-- The successfully decoded value of a `Do` round trip with a decode
target comes from the decoder applied to a body. -/
theorem clientDo_ok_decoded {α : Type} (t : Transport) (req : Request) (init : α)
    (dec : Json → Except Err α) (v : α) (ro : Option Response)
    (h : clientDo t req init (some dec) = (v, ro, none)) :
    v = init ∨ ∃ j, dec j = .ok v := by
  unfold clientDo at h
  cases ht : t req with
  | connFailure e => rw [ht] at h; simp at h
  | httpReply resp =>
    rw [ht] at h
    dsimp only at h
    by_cases h2 : 200 ≤ resp.statusCode ∧ resp.statusCode ≤ 299
    · rw [if_pos h2] at h
      cases hb : resp.body with
      | readFailure => rw [hb] at h; simp at h
      | bad => rw [hb] at h; simp at h
      | bytesOf j =>
        rw [hb] at h
        dsimp only at h
        cases hd : dec j with
        | error e => rw [hd] at h; simp at h
        | ok w =>
          rw [hd] at h
          simp at h
          exact Or.inr ⟨j, by rw [hd, h.1]⟩
    · rw [if_neg h2] at h; simp at h

/-- C9: whatever the Transport's response bodies contain, every `User`
record handed back by `UserService.Get`, `Myself`, `Create` or
`PermissionSearch` has an empty `Password`: the credential field is
write-only and never echoed back. -/
theorem user_password_never_echoed (t : Transport) (username : String)
    (search : UserPermissionSearch) (u₀ u : User) (us : List User) :
    ((userGet t username).decoded = some u → u.Password = "")
    ∧ ((myself t).decoded = some u → u.Password = "")
    ∧ ((userCreate t u₀).decoded = some u → u.Password = "")
    ∧ ((permissionSearch t search).decoded = some us → ∀ v ∈ us, v.Password = "") := by
  refine ⟨?_, ?_, ?_, ?_⟩
  · intro h
    simp only [userGet] at h
    rcases hre : clientDo t (newRequest "GET" ("/rest/api/2/user?username=" ++ username) none)
        zeroUser (some decodeUser) with ⟨v, ro, eo⟩
    rw [hre] at h
    cases eo with
    | some e => simp at h
    | none =>
      simp at h
      rcases clientDo_ok_decoded _ _ _ _ _ _ hre with hv | ⟨j, hj⟩
      · rw [← h, hv]; rfl
      · rw [← h]; exact decodeUser_password_empty j v hj
  · intro h
    simp only [myself] at h
    rcases hre : clientDo t (newRequest "GET" "/rest/api/2/myself" none)
        zeroUser (some decodeUser) with ⟨v, ro, eo⟩
    rw [hre] at h
    cases eo with
    | some e => simp at h
    | none =>
      simp at h
      rcases clientDo_ok_decoded _ _ _ _ _ _ hre with hv | ⟨j, hj⟩
      · rw [← h, hv]; rfl
      · rw [← h]; exact decodeUser_password_empty j v hj
  · intro h
    simp only [userCreate] at h
    rcases hre : clientDo t (newRequest "POST" "/rest/api/2/user" (some (.user u₀))) () none
      with ⟨v, ro, eo⟩
    rw [hre] at h
    cases eo with
    | some e => simp at h
    | none =>
      cases ro with
      | none => simp at h
      | some resp =>
        dsimp only at h
        cases hb : resp.body with
        | readFailure => rw [hb] at h; simp at h
        | bad => rw [hb] at h; simp at h
        | bytesOf j =>
          rw [hb] at h
          dsimp only at h
          cases hd : decodeUser j with
          | error e => rw [hd] at h; simp at h
          | ok w =>
            rw [hd] at h
            simp at h
            rw [← h]
            exact decodeUser_password_empty j w hd
  · intro h
    simp only [permissionSearch, permissionSearchWith] at h
    rcases hre : clientDo t
        (newRequest "GET"
          (if stringOfBytes (permissionSearchQuery search) = ""
            then "/rest/api/2/user/permission/search"
            else "/rest/api/2/user/permission/search" ++ "?"
              ++ stringOfBytes (permissionSearchQuery search)) none)
        ([] : List User) (some decodeUserList) with ⟨v, ro, eo⟩
    rw [hre] at h
    cases eo with
    | some e => simp at h
    | none =>
      simp at h
      rcases clientDo_ok_decoded _ _ _ _ _ _ hre with hv | ⟨j, hj⟩
      · rw [← h, hv]; intro u hu; simp at hu
      · rw [← h]; exact decodeUserList_password_empty j v hj

/-- C9 witness: a response body that does carry a password-like field
still decodes to a `User` with an empty `Password`. -/
theorem user_password_never_echoed_witness :
    (userGet (constTransport ⟨200, .bytesOf (.obj [("name", .str "bob"),
        ("password", .str "hunter2")])⟩) "bob").decoded
      = some ⟨"", "bob", "", "", "", ⟨Json.null⟩, "", false, "", none⟩
    ∧ (⟨"", "bob", "", "", "", ⟨Json.null⟩, "", false, "", none⟩ : User).Password = "" :=
  ⟨rfl,
   (user_password_never_echoed
      (constTransport ⟨200, .bytesOf (.obj [("name", .str "bob"),
        ("password", .str "hunter2")])⟩) "bob" zeroUserPermissionSearch zeroUser
      ⟨"", "bob", "", "", "", ⟨Json.null⟩, "", false, "", none⟩ []).1 rfl⟩

/-! ### C2 and C10: the PermissionSearch query encoding -/

theorem natToDigits_valid (n : Nat) : ∀ b ∈ natToDigits n, b < 256 := by
  induction n using Nat.strong_induction_on with
  | _ n ih =>
    intro b hb
    rw [natToDigits] at hb
    by_cases h : n < 10
    · rw [if_pos h] at hb
      simp at hb
      omega
    · rw [if_neg h] at hb
      rcases List.mem_append.mp hb with hb | hb
      · exact ih (n / 10) (Nat.div_lt_self (by omega) (by omega)) b hb
      · simp at hb
        omega

theorem itoa_valid (n : Int) : ∀ b ∈ itoa n, b < 256 := by
  unfold itoa
  split
  · intro b hb
    rcases List.mem_cons.mp hb with rfl | hb
    · omega
    · exact natToDigits_valid _ b hb
  · exact natToDigits_valid _

theorem escapeByte_ne (c b : Nat) (hb : b ∈ escapeByte c) :
    b ≠ 38 ∧ b ≠ 59 ∧ b ≠ 61 := by
  unfold escapeByte at hb
  split at hb
  · rename_i h1
    simp at hb
    subst hb
    simp [isUnreserved] at h1
    omega
  · split at hb
    · simp at hb
      omega
    · simp at hb
      rcases hb with rfl | rfl | rfl
      · omega
      · unfold hexUpperDigit
        split <;> omega
      · unfold hexUpperDigit
        split <;> omega

theorem escapeBytes_ne (v : List Nat) (b : Nat) (hb : b ∈ escapeBytes v) :
    b ≠ 38 ∧ b ≠ 59 ∧ b ≠ 61 := by
  induction v with
  | nil => simp [escapeBytes] at hb
  | cons c cs ih =>
    simp only [escapeBytes] at hb
    rcases List.mem_append.mp hb with hb | hb
    · exact escapeByte_ne c b hb
    · exact ih hb

theorem encodePair_no_amp (k v : List Nat) : 38 ∉ encodePair k v := by
  intro hmem
  unfold encodePair at hmem
  rcases List.mem_append.mp hmem with hm | hm
  · exact (escapeBytes_ne k 38 hm).1 rfl
  · rcases List.mem_cons.mp hm with hm | hm
    · omega
    · exact (escapeBytes_ne v 38 hm).1 rfl

theorem encodePair_no_semi (k v : List Nat) : 59 ∉ encodePair k v := by
  intro hmem
  unfold encodePair at hmem
  rcases List.mem_append.mp hmem with hm | hm
  · exact (escapeBytes_ne k 59 hm).2.1 rfl
  · rcases List.mem_cons.mp hm with hm | hm
    · omega
    · exact (escapeBytes_ne v 59 hm).2.1 rfl

theorem encodePair_ne_nil (k v : List Nat) : encodePair k v ≠ [] := by
  unfold encodePair
  simp

theorem cutByte_of_not_mem (sep : Nat) (l : List Nat) (h : sep ∉ l) :
    cutByte sep l = (l, none) := by
  induction l with
  | nil => rfl
  | cons c cs ih =>
    have hc : ¬(c = sep) := fun hcc => h (hcc ▸ List.mem_cons_self c cs)
    simp only [cutByte]
    rw [if_neg hc, ih (fun hm => h (List.mem_cons_of_mem c hm))]

theorem cutByte_append (sep : Nat) (x y : List Nat) (h : sep ∉ x) :
    cutByte sep (x ++ sep :: y) = (x, some y) := by
  induction x with
  | nil => simp [cutByte]
  | cons c cs ih =>
    have hc : ¬(c = sep) := fun hcc => h (hcc ▸ List.mem_cons_self c cs)
    simp only [List.cons_append, cutByte]
    rw [if_neg hc, show (cs.append (sep :: y) : List Nat) = cs ++ sep :: y from rfl,
      ih (fun hm => h (List.mem_cons_of_mem c hm))]

theorem splitAmp_of_not_mem (x : List Nat) (h : 38 ∉ x) : splitAmp x = [x] := by
  induction x with
  | nil => rfl
  | cons c cs ih =>
    have hc : ¬(c = 38) := fun hcc => h (hcc ▸ List.mem_cons_self c cs)
    simp only [splitAmp]
    rw [if_neg hc, ih (fun hm => h (List.mem_cons_of_mem c hm))]

theorem splitAmp_append (x y : List Nat) (h : 38 ∉ x) :
    splitAmp (x ++ 38 :: y) = x :: splitAmp y := by
  induction x with
  | nil => simp [splitAmp]
  | cons c cs ih =>
    have hc : ¬(c = 38) := fun hcc => h (hcc ▸ List.mem_cons_self c cs)
    simp only [List.cons_append, splitAmp]
    rw [if_neg hc, show (cs.append (38 :: y) : List Nat) = cs ++ 38 :: y from rfl,
      ih (fun hm => h (List.mem_cons_of_mem c hm))]

theorem hexVal_hexUpperDigit : ∀ d < 16, hexVal (hexUpperDigit d) = some d := by decide

theorem unescapeBytes_escape_append (v t : List Nat) (hv : ∀ b ∈ v, b < 256) :
    unescapeBytes (escapeBytes v ++ t) = (unescapeBytes t).map (fun l => v ++ l) := by
  induction v with
  | nil =>
    simp only [escapeBytes, List.nil_append]
    cases unescapeBytes t <;> simp
  | cons c cs ih =>
    have hc : c < 256 := hv c (List.mem_cons_self c cs)
    have hcs : ∀ b ∈ cs, b < 256 := fun b hb => hv b (List.mem_cons_of_mem c hb)
    simp only [escapeBytes, List.append_assoc]
    unfold escapeByte
    by_cases h1 : isUnreserved c = true
    · rw [if_pos h1]
      have hc37 : ¬(c = 37) := by simp [isUnreserved] at h1; omega
      have hc43 : ¬(c = 43) := by simp [isUnreserved] at h1; omega
      rw [show ([c] ++ (escapeBytes cs ++ t) : List Nat) = c :: (escapeBytes cs ++ t)
          from rfl]
      rw [show unescapeBytes (c :: (escapeBytes cs ++ t))
            = (unescapeBytes (escapeBytes cs ++ t)).map (fun l => c :: l) from by
        rw [unescapeBytes.eq_def]
        dsimp only
        rw [if_neg hc37, if_neg hc43]]
      rw [ih hcs]
      cases unescapeBytes t <;> simp
    · rw [if_neg h1]
      by_cases h2 : c = 32
      · rw [if_pos h2]
        subst h2
        rw [show ([43] ++ (escapeBytes cs ++ t) : List Nat) = 43 :: (escapeBytes cs ++ t)
            from rfl]
        rw [show unescapeBytes (43 :: (escapeBytes cs ++ t))
              = (unescapeBytes (escapeBytes cs ++ t)).map (fun l => 32 :: l) from by
          rw [unescapeBytes.eq_def]
          simp]
        rw [ih hcs]
        cases unescapeBytes t <;> simp
      · rw [if_neg h2]
        have hd1 : hexVal (hexUpperDigit (c / 16)) = some (c / 16) :=
          hexVal_hexUpperDigit _ (by omega)
        have hd2 : hexVal (hexUpperDigit (c % 16)) = some (c % 16) :=
          hexVal_hexUpperDigit _ (by omega)
        rw [show ([37, hexUpperDigit (c / 16), hexUpperDigit (c % 16)]
              ++ (escapeBytes cs ++ t) : List Nat)
            = 37 :: hexUpperDigit (c / 16) :: hexUpperDigit (c % 16)
              :: (escapeBytes cs ++ t) from rfl]
        rw [show unescapeBytes (37 :: hexUpperDigit (c / 16) :: hexUpperDigit (c % 16)
              :: (escapeBytes cs ++ t))
              = (unescapeBytes (escapeBytes cs ++ t)).map
                  (fun l => (16 * (c / 16) + c % 16) :: l) from by
          rw [unescapeBytes.eq_def]
          dsimp only
          rw [hd1, hd2]
          simp]
        rw [Nat.div_add_mod c 16, ih hcs]
        cases unescapeBytes t <;> simp

theorem unescapeBytes_escape (v : List Nat) (hv : ∀ b ∈ v, b < 256) :
    unescapeBytes (escapeBytes v) = some v := by
  have h := unescapeBytes_escape_append v [] hv
  rw [List.append_nil] at h
  rw [h, show unescapeBytes ([] : List Nat) = some [] from rfl]
  simp

theorem processSegs_encodePair (k v : List Nat) (hk : ∀ b ∈ k, b < 256)
    (hv : ∀ b ∈ v, b < 256) (rest : List (List Nat)) :
    processSegs (encodePair k v :: rest) =
      ((k, v) :: (processSegs rest).1, (processSegs rest).2) := by
  have h61k : (61 : Nat) ∉ escapeBytes k := fun hm => (escapeBytes_ne k 61 hm).2.2 rfl
  simp only [processSegs]
  rw [if_neg (encodePair_no_semi k v), if_neg (encodePair_ne_nil k v)]
  rw [show cutByte 61 (encodePair k v) = (escapeBytes k, some (escapeBytes v)) from
    cutByte_append 61 (escapeBytes k) (escapeBytes v) h61k]
  simp only [Option.getD_some]
  rw [unescapeBytes_escape k hk, unescapeBytes_escape v hv]

theorem processSegs_map_encode (pairs : List (List Nat × List Nat))
    (h : ∀ p ∈ pairs, (∀ b ∈ p.1, b < 256) ∧ (∀ b ∈ p.2, b < 256)) :
    processSegs (pairs.map fun p => encodePair p.1 p.2) = (pairs, false) := by
  induction pairs with
  | nil => rfl
  | cons p ps ih =>
    rw [List.map_cons,
      processSegs_encodePair p.1 p.2 (h p (List.mem_cons_self p ps)).1
        (h p (List.mem_cons_self p ps)).2,
      ih (fun q hq => h q (List.mem_cons_of_mem p hq))]

theorem joinAmp_cons_cons (x x2 : List Nat) (xs : List (List Nat)) :
    joinAmp (x :: x2 :: xs) = x ++ 38 :: joinAmp (x2 :: xs) := rfl

theorem splitAmp_joinAmp (segs : List (List Nat)) (h : ∀ s ∈ segs, 38 ∉ s)
    (hne : segs ≠ []) : splitAmp (joinAmp segs) = segs := by
  induction segs with
  | nil => exact absurd rfl hne
  | cons x xs ih =>
    cases xs with
    | nil => simp [joinAmp, splitAmp_of_not_mem x (h x (List.mem_cons_self x []))]
    | cons x2 xs2 =>
      rw [joinAmp_cons_cons, splitAmp_append x _ (h x (List.mem_cons_self x (x2 :: xs2))),
        ih (fun s hs => h s (List.mem_cons_of_mem x hs)) (by simp)]

/-- Round trip of `url.Values.Encode` and `url.ParseQuery` on any pair
list whose keys and values are byte strings. -/
theorem parseQuery_valuesEncode (pairs : List (List Nat × List Nat))
    (h : ∀ p ∈ pairs, (∀ b ∈ p.1, b < 256) ∧ (∀ b ∈ p.2, b < 256)) :
    parseQuery (valuesEncode pairs) = (pairs, false) := by
  cases pairs with
  | nil => rfl
  | cons p ps =>
    unfold parseQuery valuesEncode
    rw [splitAmp_joinAmp ((p :: ps).map fun q => encodePair q.1 q.2)
      (by
        intro s hs
        rcases List.mem_map.mp hs with ⟨q, _, rfl⟩
        exact encodePair_no_amp q.1 q.2)
      (by simp)]
    exact processSegs_map_encode (p :: ps) h

theorem permissionSearchPairs_valid (s : UserPermissionSearch)
    (h1 : ValidBytes s.Username) (h2 : ValidBytes s.Permissions)
    (h3 : ValidBytes s.IssueKey) (h4 : ValidBytes s.ProjectKey) :
    ∀ p ∈ permissionSearchPairs s, (∀ b ∈ p.1, b < 256) ∧ (∀ b ∈ p.2, b < 256) := by
  intro p hp
  simp only [permissionSearchPairs, List.mem_append] at hp
  rcases hp with ((((hp | hp) | hp) | hp) | hp) | hp
  · split at hp
    · simp at hp
      subst hp
      refine ⟨?_, ?_⟩ <;> dsimp only
      · decide
      · exact h3
    · simp at hp
  · simp at hp
    subst hp
    refine ⟨?_, ?_⟩ <;> dsimp only
    · decide
    · split
      all_goals first
        | exact itoa_valid _
        | decide
  · split at hp
    · simp at hp
      subst hp
      refine ⟨?_, ?_⟩ <;> dsimp only
      · decide
      · exact h2
    · simp at hp
  · split at hp
    · simp at hp
      subst hp
      refine ⟨?_, ?_⟩ <;> dsimp only
      · decide
      · exact h4
    · simp at hp
  · split at hp
    · simp at hp
      subst hp
      refine ⟨?_, ?_⟩ <;> dsimp only
      · decide
      · exact itoa_valid _
    · simp at hp
  · split at hp
    · simp at hp
      subst hp
      refine ⟨?_, ?_⟩ <;> dsimp only
      · decide
      · exact h1
    · simp at hp

/-- C2 counterexample: on the all-default record the spec's encoder
contract yields no fields at all, but the source encoder always emits
`maxResults=1000` — a parameter whose record field is at its zero
default — so encode-then-parse does not return only the non-default
fields. -/
theorem permissionSearch_encoder_counterexample :
    zeroUserPermissionSearch.MaxResults = 0
    ∧ specPermissionSearchPairs zeroUserPermissionSearch = []
    ∧ permissionSearchQuery zeroUserPermissionSearch = ascii "maxResults=1000"
    ∧ parseQuery (permissionSearchQuery zeroUserPermissionSearch)
        = ([(ascii "maxResults", ascii "1000")], false) := by
  decide

/-- C2 (amended): the encoder emits, in sorted key order, exactly the
non-default fields under their declared parameter names plus an
unconditional `maxResults` pair (the caller's value when nonzero, the
fixed default 1000 otherwise), and parsing the encoded query string
yields back exactly those pairs.  The claim as stated fails only in that
`maxResults` is present even at its default. -/
theorem permissionSearch_encode_parse_roundtrip (s : UserPermissionSearch)
    (h1 : ValidBytes s.Username) (h2 : ValidBytes s.Permissions)
    (h3 : ValidBytes s.IssueKey) (h4 : ValidBytes s.ProjectKey) :
    parseQuery (permissionSearchQuery s)
      = ((if s.IssueKey ≠ [] then [(ascii "issueKey", s.IssueKey)] else [])
          ++ [(ascii "maxResults",
                if s.MaxResults ≠ 0 then itoa s.MaxResults else ascii "1000")]
          ++ (if s.Permissions ≠ [] then [(ascii "permissions", s.Permissions)] else [])
          ++ (if s.ProjectKey ≠ [] then [(ascii "projectKey", s.ProjectKey)] else [])
          ++ (if s.StartAt ≠ 0 then [(ascii "startAt", itoa s.StartAt)] else [])
          ++ (if s.Username ≠ [] then [(ascii "username", s.Username)] else []), false)
    ∧ List.Chain' (fun p q => lexLe p.1 q.1 = true) (permissionSearchPairs s) := by
  constructor
  · exact parseQuery_valuesEncode _ (permissionSearchPairs_valid s h1 h2 h3 h4)
  · unfold permissionSearchPairs
    split_ifs <;> simp [List.chain'_cons, List.chain'_singleton]
    all_goals decide

/-- C2 witness: the amended round trip at a concrete record. -/
theorem permissionSearch_encode_parse_roundtrip_witness :
    parseQuery (permissionSearchQuery ⟨ascii "bob", [], ascii "K-1", [], 0, 0⟩)
      = ([(ascii "issueKey", ascii "K-1"), (ascii "maxResults", ascii "1000"),
          (ascii "username", ascii "bob")], false)
    ∧ List.Chain' (fun p q => lexLe p.1 q.1 = true)
        (permissionSearchPairs ⟨ascii "bob", [], ascii "K-1", [], 0, 0⟩) :=
  ⟨(permissionSearch_encode_parse_roundtrip ⟨ascii "bob", [], ascii "K-1", [], 0, 0⟩
      (by decide) (by decide) (by decide) (by decide)).1.trans (by decide),
   (permissionSearch_encode_parse_roundtrip ⟨ascii "bob", [], ascii "K-1", [], 0, 0⟩
      (by decide) (by decide) (by decide) (by decide)).2⟩

theorem permissionSearchWith_sent (t : Transport) (q : String) :
    (permissionSearchWith t q).sent
      = [newRequest "GET" (if q = "" then "/rest/api/2/user/permission/search"
          else "/rest/api/2/user/permission/search" ++ "?" ++ q) none] := by
  simp only [permissionSearchWith]
  split <;> rfl

/-- C10: `PermissionSearch` always sends a `maxResults` parameter: the
pair is among the encoded fields for every record — carrying the caller's
value when `MaxResults` is nonzero and the fixed default 1000 when it is
zero — the built query string is never empty, and the single GET request
issued therefore always carries the query after a `?`. -/
theorem permissionSearch_always_sends_maxResults (t : Transport)
    (s : UserPermissionSearch) :
    (ascii "maxResults", if s.MaxResults ≠ 0 then itoa s.MaxResults else ascii "1000")
        ∈ permissionSearchPairs s
    ∧ permissionSearchQuery s ≠ []
    ∧ (permissionSearch t s).sent
        = [newRequest "GET" ("/rest/api/2/user/permission/search" ++ "?"
            ++ stringOfBytes (permissionSearchQuery s)) none] := by
  have hmem : (ascii "maxResults",
      if s.MaxResults ≠ 0 then itoa s.MaxResults else ascii "1000")
      ∈ permissionSearchPairs s := by
    unfold permissionSearchPairs
    simp [List.mem_append]
  have hq : permissionSearchQuery s ≠ [] := by
    unfold permissionSearchQuery valuesEncode
    cases hps : permissionSearchPairs s with
    | nil => exact absurd hps (List.ne_nil_of_mem hmem)
    | cons p ps =>
      rw [List.map_cons]
      cases hm : ps.map (fun p => encodePair p.1 p.2) with
      | nil => simpa [joinAmp] using encodePair_ne_nil p.1 p.2
      | cons e2 es =>
        rw [joinAmp_cons_cons]
        simp
  have hs : ¬(stringOfBytes (permissionSearchQuery s) = "") := by
    intro hemp
    apply hq
    have hdata := congrArg String.data hemp
    simp only [stringOfBytes] at hdata
    exact List.map_eq_nil_iff.mp hdata
  refine ⟨hmem, hq, ?_⟩
  rw [show permissionSearch t s
      = permissionSearchWith t (stringOfBytes (permissionSearchQuery s)) from rfl,
    permissionSearchWith_sent, if_neg hs]

end Jira
